import Mathlib

/-!
Verification of the mpv JSON-IPC correlator (github.com/xoltia/mpv).

The development shallowly embeds the core of the `ipc` type and the
client facade: the frame codec and reader-loop iteration, the writer-loop
iteration, the `close` teardown, the response post-processing in
`Client.command`, the typed property getters, and `Seek`'s argument
construction.  Concurrency between the caller (`sendCommand`), the writer
loop, the reader loop, cancellation and close is modelled as a labelled
transition system over the pending-request table; Go `select` statements
with several ready branches become explicit nondeterministic choice
parameters or transition-rule alternatives.
-/

namespace Mpv

/-- Dynamic Go values as they appear in the IPC layer: the result of
`json.Unmarshal` into `map[string]any` (null, bool, number, string,
array, object; JSON numbers all decode to `float64`, here carried by a
single number constructor), plus a `strings.Builder` value, which occurs
as a command argument in `Client.Seek`. -/
inductive GoVal where
  | vnull : GoVal
  | vbool (b : Bool) : GoVal
  | vnum (n : Int) : GoVal
  | vstr (s : String) : GoVal
  | varr (xs : List GoVal) : GoVal
  | vobj (fields : List (String × GoVal)) : GoVal
  | vbuilder (contents : String) : GoVal

/-- Errors that the IPC layer and the client facade produce or propagate:
`ErrClosed`, `context.Canceled`, a transport write error carrying the
underlying message, the `mpv: command failed: %s` error built by
`Client.command`, the wrapped `ipc: failed to close connection: %w`
error from `ipc.close`, and the three `mpv: property is not a ...`
errors from the typed getters. -/
inductive GoErr where
  | errClosed : GoErr
  | ctxCanceled : GoErr
  | transportErr (msg : String) : GoErr
  | commandFailed (playerErr : String) : GoErr
  | closeConnFailed (msg : String) : GoErr
  | notBool (v : GoVal) : GoErr
  | notFloat (v : GoVal) : GoErr
  | notString (v : GoVal) : GoErr

/-- The `Response` struct: `data`, `error`, `request_id`. -/
structure Resp where
  data : GoVal
  error : String
  requestID : Int

/-- Models `Response.Success`: `r.Error == "success"`. -/
def respSuccess (r : Resp) : Bool :=
  r.error = "success"

/-- Association-list lookup used to model reading a key of the decoded
`map[string]any`.  A missing key yields `none`, which in Go is the nil
interface value. -/
def lookupField : List (String × GoVal) → String → Option GoVal
  | [], _ => none
  | (k, v) :: rest, key => if k = key then some v else lookupField rest key

/-- Models the Go test `event[k] != nil` on the decoded object: the key
must be present and its value must not be JSON null (both a missing key
and an explicit null give the nil interface value). -/
def fieldNonNull (m : List (String × GoVal)) (k : String) : Bool :=
  match lookupField m k with
  | some GoVal.vnull => false
  | some _ => true
  | none => false

/-- Classification of one decoded line by `ipc.readLoop`'s switch:
an event frame, a response frame, or a frame matching neither case
(silently ignored). -/
inductive Frame where
  | eventFrame : Frame
  | responseFrame : Frame
  | ignoredFrame : Frame
deriving DecidableEq

/-- Models the switch in `ipc.readLoop`: `event["event"] != nil` makes an
event frame; otherwise `event["error"] != nil` makes a response frame;
otherwise the line is ignored. -/
def classifyObj (m : List (String × GoVal)) : Frame :=
  if fieldNonNull m "event" then Frame.eventFrame
  else if fieldNonNull m "error" then Frame.responseFrame
  else Frame.ignoredFrame

/-- Models `int64(event["request_id"].(float64))`: succeeds only when the
field holds a number; any other shape is a failed type assertion (a Go
panic), modelled as `none`. -/
def assertNumField (v : Option GoVal) : Option Int :=
  match v with
  | some (GoVal.vnum n) => some n
  | _ => none

/-- Models `event["error"].(string)`. -/
def assertStrField (v : Option GoVal) : Option String :=
  match v with
  | some (GoVal.vstr s) => some s
  | _ => none

/-- Models the construction of the `Response` value inside
`ipc.handleResponse`: `request_id` is asserted to be a number, `error`
to be a string, and `data` is taken as-is (nil when absent).  A failed
assertion (Go panic) is `none`. -/
def extractResponse (m : List (String × GoVal)) : Option Resp :=
  match assertNumField (lookupField m "request_id"),
        assertStrField (lookupField m "error") with
  | some id, some e =>
      some { data := (lookupField m "data").getD GoVal.vnull
             error := e
             requestID := id }
  | _, _ => none

/-- Input consumed by one iteration of `ipc.readLoop`: either `i.read()`
returned an error, or it returned a line, recorded here together with the
result of `json.Unmarshal` on it (`none` when unmarshalling failed). -/
inductive RInput where
  | readErr : RInput
  | line (parsed : Option (List (String × GoVal))) : RInput

/-- Result of one iteration of `ipc.readLoop`: the loop returns, or it
continues after possibly handing an event to the events channel and
possibly handling a response; `panicked` records a failed type assertion
inside `handleResponse`, and `blockedForever` a channel operation with no
ready partner.  The loop body never produces `blockedForever` because its
only send sits in a `select` with a `default` branch. -/
inductive RStep where
  | stop : RStep
  | cont (eventDelivered : Bool) (response : Option Resp) : RStep
  | panicked : RStep
  | blockedForever : RStep

/-- Models one iteration of `ipc.readLoop`.  `consumerReady` tells whether
a receiver is ready on the unbuffered `i.events` channel, `closeChClosed`
whether `i.closeCh` has been closed, and `pick` resolves the `select`
when both the event send and the close receive are ready (Go picks
uniformly among ready cases; `default` runs only when none is ready). -/
def readLoopIter (consumerReady closeChClosed pick : Bool) :
    RInput → RStep
  | RInput.readErr => RStep.stop
  | RInput.line none => RStep.cont false none
  | RInput.line (some m) =>
      match classifyObj m with
      | Frame.eventFrame =>
          if consumerReady && closeChClosed then
            if pick then RStep.cont true none else RStep.stop
          else if consumerReady then RStep.cont true none
          else if closeChClosed then RStep.stop
          else RStep.cont false none
      | Frame.responseFrame =>
          match extractResponse m with
          | some r => RStep.cont false (some r)
          | none => RStep.panicked
      | Frame.ignoredFrame => RStep.cont false none

/-! ### Writer loop (part of `ipc.writeLoop`) -/

/-- Actions performed by one iteration of `ipc.writeLoop` on a received
request, in order: storing the pending entry, attempting the transport
write, and on failure either delivering the write error to the entry's
error channel or observing the call's cancelled context (the two branches
of the inner `select`), followed by deleting the entry. -/
inductive WAct where
  | store (id : Int) : WAct
  | writeAttempt (id : Int) : WAct
  | deliverErr (id : Int) (msg : String) : WAct
  | observeCancel (id : Int) : WAct
  | deleteEntry (id : Int) : WAct
deriving DecidableEq

/-- State of one pending request's caller-side resources: the two
capacity-one channels (`resp`, `err`) as optional buffered values and
whether the request's context is done. -/
structure ChanSt where
  respBuf : Option Resp
  errBuf : Option GoErr
  ctxDone : Bool

/-- Models the body of the `case req := <-i.outgoing` branch of
`ipc.writeLoop`: store the entry under the request id, write the encoded
command, and on a write error run
`select { case req.err <- err: ... case <-req.ctx.Done(): }` and delete
the entry.  `writeResult` is the transport's answer (`some msg` = write
error).  The error send on the fresh capacity-one channel is always
ready, so when the context is also done the `select` picks either ready
branch; `pick = true` chooses the error send.  The first component of
the result is the set of table keys after the iteration, given the keys
`before` it; the second is the action trace of the iteration. -/
def writeLoopIter (before : List Int) (id : Int) (cancelled : Bool)
    (writeResult : Option String) (pick : Bool) :
    List Int × List WAct :=
  let afterStore := id :: before
  match writeResult with
  | none => (afterStore, [WAct.store id, WAct.writeAttempt id])
  | some msg =>
      let deliver := if cancelled then pick else true
      (afterStore.filter (fun j => !(j = id : Bool)),
        [WAct.store id, WAct.writeAttempt id]
          ++ (if deliver then [WAct.deliverErr id msg]
              else [WAct.observeCancel id])
          ++ [WAct.deleteEntry id])

/-! ### Close (`ipc.close`, the version with `closing` flag and `closeCh`) -/

/-- State of the `ipc` struct as seen by `close`: the `closing` flag, the
`closeCh` channel's closed-ness, the pending-request table (ids paired
with each entry's channel state), and the two channels closed during
teardown. -/
structure IpcSt where
  closing : Bool
  closeChClosed : Bool
  pending : List (Int × ChanSt)
  eventsClosed : Bool
  outgoingClosed : Bool

/-- Models `ipc.close`.  `connCloseErr` is the result of `i.conn.Close()`
(`some msg` = failure).  The fast path returns nil when `closing` is
already set; the slow path returns nil when `closeCh` is already closed;
a failed connection close returns the wrapped error without any
teardown.  Otherwise the flags are set, the loops are waited for, every
entry still in the table receives `ErrClosed` on its error channel
(`pendingRequests.Range`), and the `events` and `outgoing` channels are
closed.  The second component is the returned error, the third the list
of request ids that received `ErrClosed`, in table order. -/
def ipcClose (st : IpcSt) (connCloseErr : Option String) :
    IpcSt × Option GoErr × List Int :=
  if st.closing then (st, none, [])
  else if st.closeChClosed then (st, none, [])
  else
    match connCloseErr with
    | some msg => (st, some (GoErr.closeConnFailed msg), [])
    | none =>
        let delivered := st.pending.map Prod.fst
        let pending2 := st.pending.map
          (fun p => (p.1, { p.2 with errBuf := some GoErr.errClosed }))
        ({ closing := true
           closeChClosed := true
           pending := pending2
           eventsClosed := true
           outgoingClosed := true }, none, delivered)

/-! ### Client facade: command result, typed getters, Seek -/

/-- Models the tail of `Client.command` once a response has been
received: on `resp.Success()` return `(resp.Data, nil)`, otherwise
`(nil, fmt.Errorf("mpv: command failed: %s", resp.Error))`. -/
def commandResult (r : Resp) : Option GoVal × Option GoErr :=
  if respSuccess r then (some r.data, none)
  else (none, some (GoErr.commandFailed r.error))

/-- Models `Client.GetPropertyBool` given the pair returned by
`GetProperty`: an error is returned as-is with the zero value `false`;
otherwise the type assertion `value.(bool)` either yields the bool or
fails, producing the zero value and the `mpv: property is not a bool`
error. -/
def getPropertyBool (value : GoVal) (err : Option GoErr) :
    Bool × Option GoErr :=
  match err with
  | some e => (false, some e)
  | none =>
      match value with
      | GoVal.vbool b => (b, none)
      | v => (false, some (GoErr.notBool v))

/-- Models `Client.GetPropertyFloat`; the zero value of `float64` is 0
(numbers are carried by `GoVal.vnum`). -/
def getPropertyFloat (value : GoVal) (err : Option GoErr) :
    Int × Option GoErr :=
  match err with
  | some e => (0, some e)
  | none =>
      match value with
      | GoVal.vnum n => (n, none)
      | v => (0, some (GoErr.notFloat v))

/-- Models `Client.GetPropertyString`. -/
def getPropertyString (value : GoVal) (err : Option GoErr) :
    String × Option GoErr :=
  match err with
  | some e => ("", some e)
  | none =>
      match value with
      | GoVal.vstr s => (s, none)
      | v => ("", some (GoErr.notString v))

/-- Models the flag-building loop in `Client.Seek`: a `strings.Builder`
receives a `+` before every flag except the first, then each flag. -/
def writeFlags : List String → Nat → String → String
  | [], _, acc => acc
  | f :: rest, i, acc =>
      writeFlags rest (i + 1) (acc ++ (if i > 0 then "+" else "") ++ f)

/-- The string accumulated by `Client.Seek`'s builder over `flags`. -/
def buildSeekFlagString (flags : List String) : String :=
  writeFlags flags 0 ""

/-- Models the argument list of the command issued by `Client.Seek`
(after `Client.command` prepends the method name): with no flags it is
`["seek", position]`; with flags the third argument is the
`strings.Builder` VALUE `flag`, not `flag.String()`. -/
def seekCommandArgs (position : Int) (flags : List String) : List GoVal :=
  if flags.isEmpty then [GoVal.vstr "seek", GoVal.vnum position]
  else [GoVal.vstr "seek", GoVal.vnum position,
        GoVal.vbuilder (buildSeekFlagString flags)]

/-- Models `json.Marshal` on one command argument (the elements of the
`command` array of `mpvCommand`): scalars map to their JSON forms and a
`strings.Builder`, a struct with no exported fields, marshals to the
empty JSON object. -/
def marshalArg : GoVal → GoVal
  | GoVal.vbuilder _ => GoVal.vobj []
  | v => v

/-- The JSON `command` array that `ipc.writeJSON` serializes for a call
with the given argument list. -/
def marshalCommandArray (args : List GoVal) : GoVal :=
  GoVal.varr (args.map marshalArg)

/-! ### Transition system for the correlator

One labelled step relation covering the interplay of `ipc.sendCommand`
(the caller's two selects), `ipc.writeLoop`, `ipc.handleResponse`,
per-call context cancellation, and the close sequence, at the
granularity of the pending-request table and the per-call capacity-one
channels. -/

/-- Lifecycle of one request's table entry: accepted by the writer loop
but not yet stored (`queued`), stored in `pendingRequests` (`pending`),
deleted from it (`removed`). -/
inductive RPhase where
  | queued : RPhase
  | pending : RPhase
  | removed : RPhase
deriving DecidableEq

/-- Values actually sent on a request's `err` channel by this code:
`ErrClosed` during the close drain, or a transport write error from the
writer loop. -/
inductive SentErr where
  | errClosed : SentErr
  | transportErr (msg : String) : SentErr

/-- The branch of `ipc.sendCommand`'s final select that fired for a
caller: a value from `req.resp`, a value from `req.err`, the context's
done channel (the caller returns `ctx.Err()`), or the closed `closeCh`
(the caller returns `ErrClosed`). -/
inductive CallerOut where
  | gotResp (r : Resp) : CallerOut
  | gotErr (e : SentErr) : CallerOut
  | sawCancel : CallerOut
  | sawClose : CallerOut

/-- The five caller-visible outcome kinds named by the specification. -/
inductive Outcome where
  | success (data : GoVal) : Outcome
  | remoteFailure (errStr : String) : Outcome
  | cancelled : Outcome
  | closedErr : Outcome
  | transportError (msg : String) : Outcome

/-- Maps what `ipc.sendCommand` returned to the claim's outcome taxonomy,
following `Client.command`: a received response is a success or a remote
failure by its `error` field; a received `ErrClosed` or an observed
`closeCh` is the closed error; a write error is a transport error; a
fired context is the cancellation outcome (`ctx.Err()`). -/
def callerOutcome : CallerOut → Outcome
  | CallerOut.gotResp r =>
      if respSuccess r then Outcome.success r.data
      else Outcome.remoteFailure r.error
  | CallerOut.gotErr SentErr.errClosed => Outcome.closedErr
  | CallerOut.gotErr (SentErr.transportErr m) => Outcome.transportError m
  | CallerOut.sawCancel => Outcome.cancelled
  | CallerOut.sawClose => Outcome.closedErr

/-- State of one request in the transition system: its table phase, the
contents of its two capacity-one channels, whether its context is done,
and what its caller's select returned (`none` while still blocked). -/
structure ReqSt where
  phase : RPhase
  respBuf : Option Resp
  errBuf : Option SentErr
  cancelled : Bool
  caller : Option CallerOut

/-- A freshly accepted request: handed to the writer loop, not yet
stored, channels empty, context live, caller blocked in its select. -/
def ReqSt.init : ReqSt :=
  { phase := RPhase.queued
    respBuf := none
    errBuf := none
    cancelled := false
    caller := none }

/-- Global state: the requests keyed by id, the `closing` flag, whether
`closeCh` is closed, whether both loops have terminated, and whether the
close drain has run. -/
structure Sys where
  reqs : List (Int × ReqSt)
  closing : Bool
  closeChClosed : Bool
  loopsStopped : Bool
  drained : Bool

/-- Lookup in the request list by id. -/
def getReq : List (Int × ReqSt) → Int → Option ReqSt
  | [], _ => none
  | (j, q) :: rest, id => if j = id then some q else getReq rest id

/-- Pointwise update of the request list at one id. -/
def setReq : List (Int × ReqSt) → Int → ReqSt → List (Int × ReqSt)
  | [], _, _ => []
  | (j, q) :: rest, id, r =>
      if j = id then (j, r) :: rest else (j, q) :: setReq rest id r

/-- The close drain applied to one entry: entries still in the table
receive `ErrClosed` on their error channel; the rest are untouched. -/
def drainEntry (q : ReqSt) : ReqSt :=
  if q.phase = RPhase.pending then
    { q with errBuf := some SentErr.errClosed, phase := RPhase.removed }
  else q

/-- The close drain over the whole table (`range` over the pending
requests after both loops have stopped). -/
def drainReqs (l : List (Int × ReqSt)) : List (Int × ReqSt) :=
  l.map (fun p => (p.1, drainEntry p.2))

/-- What the caller of `ipc.sendCommand` for `id` has received, read off
a request list. -/
def callerIn (l : List (Int × ReqSt)) (id : Int) : Option CallerOut :=
  match getReq l id with
  | some q => q.caller
  | none => none

/-- What the caller of `ipc.sendCommand` for `id` has received so far. -/
def callerOf (s : Sys) (id : Int) : Option CallerOut :=
  callerIn s.reqs id

/-- Transition labels. -/
inductive Act where
  | accept (id : Int) : Act
  | wInsert (id : Int) : Act
  | wWriteFail (id : Int) (msg : String) (deliver : Bool) : Act
  | rDeliver (id : Int) (r : Resp) (deliver : Bool) : Act
  | cancelCtx (id : Int) : Act
  | closeSignal : Act
  | stopLoops : Act
  | drain : Act
  | resolve (id : Int) (o : CallerOut) : Act

/-- Small-step semantics of the correlator.

`accept`: `sendCommand` passed the `closing` check and the writer loop
received the request from `outgoing` (first select, send branch).

`wInsert`: the writer loop stores the entry in `pendingRequests`.

`wWriteFail`: the transport write failed; per the inner select the error
is sent on `req.err` (always ready on the fresh capacity-one channel)
unless the context is done and the select picks `ctx.Done()`; either way
the entry is deleted.

`rDeliver`: `handleResponse` found the entry for a response line with
this request id, sends the response on `req.resp` unless the context is
done and the select picks `ctx.Done()`, and deletes the entry; a
response whose id has no table entry changes nothing and needs no rule.

`cancelCtx`: the caller's context fires; nothing is removed from the
table.

`closeSignal`: `close` set `closing` and closed `closeCh`.

`stopLoops`: both loops observed the close and terminated
(`closingWg.Wait` returns).

`drain`: `close` delivers `ErrClosed` to every entry still in the
table, once the loops have stopped.

`resolve`: the caller's final select fires on one ready branch. -/
inductive Step : Sys → Act → Sys → Prop where
  | accept (s : Sys) (id : Int)
      (hfresh : getReq s.reqs id = none)
      (hopen : s.closing = false)
      (hch : s.closeChClosed = false) :
      Step s (Act.accept id) { s with reqs := (id, ReqSt.init) :: s.reqs }
  | wInsert (s : Sys) (id : Int) (q : ReqSt)
      (hq : getReq s.reqs id = some q)
      (hloops : s.loopsStopped = false)
      (hphase : q.phase = RPhase.queued) :
      Step s (Act.wInsert id)
        { s with reqs := setReq s.reqs id { q with phase := RPhase.pending } }
  | wWriteFail (s : Sys) (id : Int) (q : ReqSt) (msg : String)
      (deliver : Bool)
      (hq : getReq s.reqs id = some q)
      (hloops : s.loopsStopped = false)
      (hphase : q.phase = RPhase.pending)
      (hsel : deliver = true ∨ q.cancelled = true)
      (hbuf : deliver = true → q.errBuf = none) :
      Step s (Act.wWriteFail id msg deliver)
        { s with reqs := setReq s.reqs id { q with errBuf := (if deliver then some (SentErr.transportErr msg) else q.errBuf), phase := RPhase.removed } }
  | rDeliver (s : Sys) (id : Int) (q : ReqSt) (r : Resp) (deliver : Bool)
      (hq : getReq s.reqs id = some q)
      (hloops : s.loopsStopped = false)
      (hphase : q.phase = RPhase.pending)
      (hid : r.requestID = id)
      (hsel : deliver = true ∨ q.cancelled = true)
      (hbuf : deliver = true → q.respBuf = none) :
      Step s (Act.rDeliver id r deliver)
        { s with reqs := setReq s.reqs id { q with respBuf := (if deliver then some r else q.respBuf), phase := RPhase.removed } }
  | cancelCtx (s : Sys) (id : Int) (q : ReqSt)
      (hq : getReq s.reqs id = some q) :
      Step s (Act.cancelCtx id)
        { s with reqs := setReq s.reqs id { q with cancelled := true } }
  | closeSignal (s : Sys)
      (hch : s.closeChClosed = false) :
      Step s Act.closeSignal { s with closing := true, closeChClosed := true }
  | stopLoops (s : Sys)
      (hch : s.closeChClosed = true)
      (hloops : s.loopsStopped = false) :
      Step s Act.stopLoops { s with loopsStopped := true }
  | drain (s : Sys)
      (hch : s.closeChClosed = true)
      (hloops : s.loopsStopped = true)
      (hdr : s.drained = false) :
      Step s Act.drain { s with reqs := drainReqs s.reqs, drained := true }
  | resolveResp (s : Sys) (id : Int) (q : ReqSt) (r : Resp)
      (hq : getReq s.reqs id = some q)
      (hwait : q.caller = none)
      (hready : q.respBuf = some r) :
      Step s (Act.resolve id (CallerOut.gotResp r))
        { s with reqs := setReq s.reqs id { q with caller := some (CallerOut.gotResp r), respBuf := none } }
  | resolveErr (s : Sys) (id : Int) (q : ReqSt) (e : SentErr)
      (hq : getReq s.reqs id = some q)
      (hwait : q.caller = none)
      (hready : q.errBuf = some e) :
      Step s (Act.resolve id (CallerOut.gotErr e))
        { s with reqs := setReq s.reqs id { q with caller := some (CallerOut.gotErr e), errBuf := none } }
  | resolveCancel (s : Sys) (id : Int) (q : ReqSt)
      (hq : getReq s.reqs id = some q)
      (hwait : q.caller = none)
      (hready : q.cancelled = true) :
      Step s (Act.resolve id CallerOut.sawCancel)
        { s with reqs := setReq s.reqs id { q with caller := some CallerOut.sawCancel } }
  | resolveClose (s : Sys) (id : Int) (q : ReqSt)
      (hq : getReq s.reqs id = some q)
      (hwait : q.caller = none)
      (hready : s.closeChClosed = true) :
      Step s (Act.resolve id CallerOut.sawClose)
        { s with reqs := setReq s.reqs id { q with caller := some CallerOut.sawClose } }

/-- Finite executions of the system. -/
inductive Reaches : Sys → Sys → Prop where
  | refl (s : Sys) : Reaches s s
  | tail (s t u : Sys) (a : Act) :
      Reaches s t → Step t a u → Reaches s u

/-! ### Concrete sample states used to evaluate the theorems -/

/-- A stored request whose context has fired, channels empty, caller
still waiting. -/
def cancelledReq : ReqSt :=
  { phase := RPhase.pending
    respBuf := none
    errBuf := none
    cancelled := true
    caller := none }

/-- A one-request system for exercising the caller's select. -/
def c1sys : Sys :=
  { reqs := [(0, cancelledReq)]
    closing := false
    closeChClosed := false
    loopsStopped := false
    drained := false }

/-- A second copy of the one-request system, for the cancellation
scenario. -/
def c3sys : Sys :=
  { reqs := [(5, cancelledReq)]
    closing := false
    closeChClosed := false
    loopsStopped := false
    drained := false }

/-- A reply from the player for the cancelled request in `c3sys`. -/
def c3resp : Resp :=
  { data := GoVal.vbool true, error := "success", requestID := 5 }

/-- An entry with empty channels and a live context. -/
def freshChan : ChanSt :=
  { respBuf := none, errBuf := none, ctxDone := false }

/-- An open connection with one pending call. -/
def c2onePending : IpcSt :=
  { closing := false
    closeChClosed := false
    pending := [(0, freshChan)]
    eventsClosed := false
    outgoingClosed := false }

/-- An open connection with two pending calls. -/
def c2twoPending : IpcSt :=
  { closing := false
    closeChClosed := false
    pending := [(0, freshChan), (1, freshChan)]
    eventsClosed := false
    outgoingClosed := false }

/-- A decoded line carrying only a `request_id` field. -/
def c5idOnly : List (String × GoVal) :=
  [("request_id", GoVal.vnum 7)]

/-- A well-shaped response line. -/
def c5respObj : List (String × GoVal) :=
  [("request_id", GoVal.vnum 7), ("error", GoVal.vstr "success"),
   ("data", GoVal.vbool false)]

/-- A decoded event line. -/
def c6eventObj : List (String × GoVal) :=
  [("event", GoVal.vstr "idle")]

/-- A failed response from the player. -/
def c8failResp : Resp :=
  { data := GoVal.vnull, error := "invalid parameter", requestID := 3 }

/-! ### Theorems -/

/-- Claim C5, counterexample: a decoded line that carries a `request_id`
field but no `error` field is not classified as a Response frame,
contrary to the claim; the reader loop's switch keys on the `error`
field, so the line matches neither case and is ignored. -/
theorem c5_request_id_alone_not_response :
    fieldNonNull c5idOnly "event" = false
    ∧ fieldNonNull c5idOnly "request_id" = true
    ∧ classifyObj c5idOnly ≠ Frame.responseFrame
    ∧ classifyObj c5idOnly = Frame.ignoredFrame := by
  decide

/-- Claim C5, amended: the reader loop classifies a decoded line as an
Event frame when it carries a non-null `event` field, otherwise as a
Response frame when it carries a non-null `error` field (not
`request_id`), and otherwise ignores it; a well-shaped Response carries
the `error` string, the `data` payload and the numeric `request_id`. -/
theorem c5_classification_by_error_field :
    ∀ m : List (String × GoVal),
      (fieldNonNull m "event" = true → classifyObj m = Frame.eventFrame)
      ∧ (fieldNonNull m "event" = false → fieldNonNull m "error" = true →
          classifyObj m = Frame.responseFrame)
      ∧ (fieldNonNull m "event" = false → fieldNonNull m "error" = false →
          classifyObj m = Frame.ignoredFrame)
      ∧ (∀ id e, assertNumField (lookupField m "request_id") = some id →
          assertStrField (lookupField m "error") = some e →
          extractResponse m =
            some { data := (lookupField m "data").getD GoVal.vnull
                   error := e
                   requestID := id }) := by
  intro m
  refine ⟨?_, ?_, ?_, ?_⟩
  · intro h; simp [classifyObj, h]
  · intro h1 h2; simp [classifyObj, h1, h2]
  · intro h1 h2; simp [classifyObj, h1, h2]
  · intro id e h1 h2; simp [extractResponse, h1, h2]

/-- Claim C5, witness: the amended classification evaluated on a
well-shaped response line. -/
theorem c5_classification_witness :
    classifyObj c5respObj = Frame.responseFrame
    ∧ extractResponse c5respObj =
        some { data := GoVal.vbool false, error := "success", requestID := 7 } := by
  refine ⟨(c5_classification_by_error_field c5respObj).2.1 rfl rfl, ?_⟩
  exact (c5_classification_by_error_field c5respObj).2.2.2 7 "success" rfl rfl

/-- Claim C6, counterexample: once `closeCh` is closed, an event that
cannot be handed over makes the reader loop return rather than drop the
event and continue, so the claim's unconditional drop-and-proceed does
not hold. -/
theorem c6_close_signal_stops_reader :
    classifyObj c6eventObj = Frame.eventFrame
    ∧ readLoopIter false true true (RInput.line (some c6eventObj)) = RStep.stop
    ∧ RStep.stop ≠ RStep.cont false none :=
  ⟨rfl, rfl, fun h => RStep.noConfusion h⟩

/-- Claim C6, amended: while close has not been signalled, an event the
unbuffered events channel cannot accept immediately is dropped and the
loop proceeds to the next line; once close is signalled the loop may
instead terminate; in every case the dispatch select is non-blocking. -/
theorem c6_event_dropped_when_not_ready :
    (∀ (m : List (String × GoVal)) (pick : Bool),
        classifyObj m = Frame.eventFrame →
        readLoopIter false false pick (RInput.line (some m)) =
          RStep.cont false none)
    ∧ (∀ (c k p : Bool) (inp : RInput),
        readLoopIter c k p inp ≠ RStep.blockedForever) := by
  constructor
  · intro m pick h
    simp [readLoopIter, h]
  · intro c k p inp
    cases inp with
    | readErr => intro h; exact RStep.noConfusion h
    | line parsed =>
        cases parsed with
        | none => intro h; exact RStep.noConfusion h
        | some m =>
            simp only [readLoopIter]
            cases hcl : classifyObj m with
            | eventFrame => cases c <;> cases k <;> cases p <;> simp
            | responseFrame => cases hex : extractResponse m <;> simp [hex]
            | ignoredFrame => simp

/-- Claim C6, witness: the amended drop behaviour evaluated on a
concrete event line with no ready consumer and close not signalled. -/
theorem c6_event_dropped_witness :
    readLoopIter false false true (RInput.line (some c6eventObj)) =
      RStep.cont false none :=
  c6_event_dropped_when_not_ready.1 c6eventObj true rfl

/-- Claim C7: a line that fails to unmarshal as JSON makes the reader
loop continue unchanged — no outcome is delivered, no event is
dispatched, and the loop does not terminate. -/
theorem c7_malformed_line_dropped :
    ∀ c k pick : Bool,
      readLoopIter c k pick (RInput.line none) = RStep.cont false none
      ∧ RStep.cont false none ≠ RStep.stop :=
  fun _ _ _ => ⟨rfl, fun h => RStep.noConfusion h⟩

/-- Claim C9: `Seek` with no flags issues `["seek", position]`, but with
flags it passes the `strings.Builder` value itself as the third
argument, which `json.Marshal` serializes as the empty object `{}` — not
the `+`-joined flag string the builder accumulated. -/
theorem c9_seek_marshals_builder_as_object :
    seekCommandArgs 5 [] = [GoVal.vstr "seek", GoVal.vnum 5]
    ∧ buildSeekFlagString ["absolute", "exact"] = "absolute+exact"
    ∧ seekCommandArgs 5 ["absolute", "exact"] =
        [GoVal.vstr "seek", GoVal.vnum 5, GoVal.vbuilder "absolute+exact"]
    ∧ marshalCommandArray (seekCommandArgs 5 ["absolute", "exact"]) =
        GoVal.varr [GoVal.vstr "seek", GoVal.vnum 5, GoVal.vobj []]
    ∧ GoVal.vobj ([] : List (String × GoVal)) ≠ GoVal.vstr "absolute+exact" :=
  ⟨rfl, rfl, rfl, rfl, fun h => GoVal.noConfusion h⟩

/-- Claim C10: each typed getter returns the value exactly when the
dynamic type matches, and otherwise (or when the underlying call erred)
returns the zero value of its type with a non-nil error; every case is
covered, so the wrong-type path cannot panic. -/
theorem c10_typed_getters_safe :
    (∀ v : GoVal,
        (∃ b, v = GoVal.vbool b ∧ getPropertyBool v none = (b, none))
        ∨ (getPropertyBool v none = (false, some (GoErr.notBool v))
           ∧ ∀ b, v ≠ GoVal.vbool b))
    ∧ (∀ (v : GoVal) (e : GoErr), getPropertyBool v (some e) = (false, some e))
    ∧ (∀ v : GoVal,
        (∃ n, v = GoVal.vnum n ∧ getPropertyFloat v none = (n, none))
        ∨ (getPropertyFloat v none = (0, some (GoErr.notFloat v))
           ∧ ∀ n, v ≠ GoVal.vnum n))
    ∧ (∀ (v : GoVal) (e : GoErr), getPropertyFloat v (some e) = (0, some e))
    ∧ (∀ v : GoVal,
        (∃ s, v = GoVal.vstr s ∧ getPropertyString v none = (s, none))
        ∨ (getPropertyString v none = ("", some (GoErr.notString v))
           ∧ ∀ s, v ≠ GoVal.vstr s))
    ∧ (∀ (v : GoVal) (e : GoErr),
        getPropertyString v (some e) = ("", some e)) := by
  refine ⟨?_, fun v e => rfl, ?_, fun v e => rfl, ?_, fun v e => rfl⟩
  · intro v
    cases v <;>
      first
        | exact Or.inl ⟨_, rfl, rfl⟩
        | exact Or.inr ⟨rfl, fun x h => GoVal.noConfusion h⟩
  · intro v
    cases v <;>
      first
        | exact Or.inl ⟨_, rfl, rfl⟩
        | exact Or.inr ⟨rfl, fun x h => GoVal.noConfusion h⟩
  · intro v
    cases v <;>
      first
        | exact Or.inl ⟨_, rfl, rfl⟩
        | exact Or.inr ⟨rfl, fun x h => GoVal.noConfusion h⟩

/-! ### Helper lemmas about the pending-request table -/

/-- Updating an existing id replaces its entry. -/
theorem getReq_setReq_self {l : List (Int × ReqSt)} {id : Int} {q : ReqSt}
    (h : getReq l id = some q) (r : ReqSt) :
    getReq (setReq l id r) id = some r := by
  induction l with
  | nil => simp [getReq] at h
  | cons p rest ih =>
      obtain ⟨j, q0⟩ := p
      by_cases hj : j = id
      · simp [getReq, setReq, hj]
      · simp only [getReq, setReq, if_neg hj] at h ⊢
        exact ih h

/-- Updating one id leaves every other id's entry unchanged. -/
theorem getReq_setReq_ne (l : List (Int × ReqSt)) (id : Int) (r : ReqSt)
    {j : Int} (h : j ≠ id) :
    getReq (setReq l id r) j = getReq l j := by
  induction l with
  | nil => rfl
  | cons p rest ih =>
      obtain ⟨k, q0⟩ := p
      by_cases hk : k = id
      · have hij : ¬ (id = j) := fun hh => h hh.symm
        simp [getReq, setReq, hk, hij]
      · by_cases hj2 : k = j
        · simp [getReq, setReq, hk, hj2, h]
        · simp only [getReq, setReq, if_neg hk, if_neg hj2]
          exact ih

/-- Lookup after the close drain. -/
theorem getReq_drainReqs (l : List (Int × ReqSt)) (id : Int) :
    getReq (drainReqs l) id = (getReq l id).map drainEntry := by
  induction l with
  | nil => rfl
  | cons p rest ih =>
      obtain ⟨k, q0⟩ := p
      by_cases hk : k = id
      · simp [drainReqs, getReq, hk]
      · simp only [drainReqs, List.map_cons, getReq, if_neg hk] at ih ⊢
        exact ih

/-- The close drain never touches what a caller has received. -/
theorem drainEntry_caller (q : ReqSt) : (drainEntry q).caller = q.caller := by
  unfold drainEntry
  split <;> rfl

/-- Lookup of an updated id. -/
theorem callerIn_set_update {l : List (Int × ReqSt)} {id0 : Int}
    {q : ReqSt} (r : ReqSt) (hq : getReq l id0 = some q) :
    callerIn (setReq l id0 r) id0 = r.caller := by
  unfold callerIn
  rw [getReq_setReq_self hq]

/-- Replacing an entry with one that keeps its `caller` field preserves
every caller's received value. -/
theorem callerIn_setReq_keep {l : List (Int × ReqSt)} {id0 : Int}
    {q : ReqSt} (r : ReqSt)
    (hq : getReq l id0 = some q) (hcal : r.caller = q.caller) (id : Int) :
    callerIn (setReq l id0 r) id = callerIn l id := by
  by_cases hid : id = id0
  · subst hid
    have h1 : callerIn (setReq l id r) id = r.caller := callerIn_set_update r hq
    have h2 : callerIn l id = q.caller := by
      unfold callerIn
      rw [hq]
    rw [h1, h2, hcal]
  · unfold callerIn
    rw [getReq_setReq_ne l id0 r hid]

/-- Replacing the entry of a still-waiting caller cannot erase another
caller's received value. -/
theorem callerIn_setReq_waiting {l : List (Int × ReqSt)} {id0 : Int}
    {q : ReqSt} (r : ReqSt)
    (hq : getReq l id0 = some q) (hwait : q.caller = none)
    {id : Int} {o : CallerOut} (h : callerIn l id = some o) :
    callerIn (setReq l id0 r) id = some o := by
  by_cases hid : id = id0
  · subst hid
    have h2 : q.caller = some o := by
      unfold callerIn at h
      rw [hq] at h
      exact h
    rw [hwait] at h2
    exact Option.noConfusion h2
  · unfold callerIn
    rw [getReq_setReq_ne l id0 r hid]
    exact h

/-- One step never changes an already-received caller value: outcomes
are delivered at most once per call. -/
theorem step_caller_frozen {s t : Sys} {a : Act} (hstep : Step s a t) :
    ∀ id o, callerOf s id = some o → callerOf t id = some o := by
  intro id o h
  cases hstep with
  | accept id0 hfresh hopen hch =>
      show callerIn ((id0, ReqSt.init) :: s.reqs) id = some o
      by_cases hid : id0 = id
      · subst hid
        have h2 : callerIn s.reqs id0 = some o := h
        unfold callerIn at h2
        rw [hfresh] at h2
        exact Option.noConfusion h2
      · unfold callerIn
        simp only [getReq, if_neg hid]
        exact h
  | wInsert id0 q hq hloops hphase =>
      show callerIn (setReq s.reqs id0 { q with phase := RPhase.pending }) id = some o
      rw [callerIn_setReq_keep { q with phase := RPhase.pending } hq rfl id]
      exact h
  | wWriteFail id0 q msg deliver hq hloops hphase hsel hbuf =>
      show callerIn (setReq s.reqs id0 { q with errBuf := (if deliver then some (SentErr.transportErr msg) else q.errBuf), phase := RPhase.removed }) id = some o
      rw [callerIn_setReq_keep { q with errBuf := (if deliver then some (SentErr.transportErr msg) else q.errBuf), phase := RPhase.removed } hq rfl id]
      exact h
  | rDeliver id0 q r deliver hq hloops hphase hid0 hsel hbuf =>
      show callerIn (setReq s.reqs id0 { q with respBuf := (if deliver then some r else q.respBuf), phase := RPhase.removed }) id = some o
      rw [callerIn_setReq_keep { q with respBuf := (if deliver then some r else q.respBuf), phase := RPhase.removed } hq rfl id]
      exact h
  | cancelCtx id0 q hq =>
      show callerIn (setReq s.reqs id0 { q with cancelled := true }) id = some o
      rw [callerIn_setReq_keep { q with cancelled := true } hq rfl id]
      exact h
  | closeSignal hch => exact h
  | stopLoops hch hloops => exact h
  | drain hch hloops hdr =>
      show callerIn (drainReqs s.reqs) id = some o
      have h2 : callerIn s.reqs id = some o := h
      unfold callerIn at h2 ⊢
      rw [getReq_drainReqs]
      cases hg : getReq s.reqs id with
      | none =>
          rw [hg] at h2
          exact Option.noConfusion h2
      | some q1 =>
          rw [hg] at h2
          show (drainEntry q1).caller = some o
          rw [drainEntry_caller]
          exact h2
  | resolveResp id0 q r hq hwait hready =>
      exact callerIn_setReq_waiting _ hq hwait h
  | resolveErr id0 q e hq hwait hready =>
      exact callerIn_setReq_waiting _ hq hwait h
  | resolveCancel id0 q hq hwait hready =>
      exact callerIn_setReq_waiting _ hq hwait h
  | resolveClose id0 q hq hwait hready =>
      exact callerIn_setReq_waiting _ hq hwait h

/-- Along any execution, an already-received caller value persists. -/
theorem reaches_caller_frozen {s t : Sys} (h : Reaches s t) :
    ∀ id o, callerOf s id = some o → callerOf t id = some o := by
  induction h with
  | refl => exact fun id o h0 => h0
  | tail t0 u0 a hr hstep ih =>
      exact fun id o h0 => step_caller_frozen hstep id o (ih id o h0)

/-- A resolve step happens only while the caller is still waiting and
installs exactly the delivered outcome. -/
theorem resolve_step_waiting {s t : Sys} {id : Int} {o : CallerOut}
    (h : Step s (Act.resolve id o) t) :
    callerOf s id = none ∧ callerOf t id = some o := by
  cases h with
  | resolveResp _ q r hq hwait hready =>
      constructor
      · show callerIn s.reqs id = none
        unfold callerIn
        rw [hq]
        exact hwait
      · show callerIn (setReq s.reqs id { q with caller := some (CallerOut.gotResp r), respBuf := none }) id = some (CallerOut.gotResp r)
        rw [callerIn_set_update _ hq]
  | resolveErr _ q e hq hwait hready =>
      constructor
      · show callerIn s.reqs id = none
        unfold callerIn
        rw [hq]
        exact hwait
      · show callerIn (setReq s.reqs id { q with caller := some (CallerOut.gotErr e), errBuf := none }) id = some (CallerOut.gotErr e)
        rw [callerIn_set_update _ hq]
  | resolveCancel _ q hq hwait hready =>
      constructor
      · show callerIn s.reqs id = none
        unfold callerIn
        rw [hq]
        exact hwait
      · show callerIn (setReq s.reqs id { q with caller := some CallerOut.sawCancel }) id = some CallerOut.sawCancel
        rw [callerIn_set_update _ hq]
  | resolveClose _ q hq hwait hready =>
      constructor
      · show callerIn s.reqs id = none
        unfold callerIn
        rw [hq]
        exact hwait
      · show callerIn (setReq s.reqs id { q with caller := some CallerOut.sawClose }) id = some CallerOut.sawClose
        rw [callerIn_set_update _ hq]

/-- Whenever a resolving event is present for a waiting caller, its
select can fire. -/
theorem resolve_progress {s : Sys} {id : Int} {q : ReqSt}
    (hq : getReq s.reqs id = some q) (hwait : q.caller = none)
    (hready : q.respBuf ≠ none ∨ q.errBuf ≠ none ∨ q.cancelled = true ∨
      s.closeChClosed = true) :
    ∃ o t, Step s (Act.resolve id o) t := by
  rcases hready with h | h | h | h
  · cases hr : q.respBuf with
    | none => exact absurd hr h
    | some r => exact ⟨_, _, Step.resolveResp s id q r hq hwait hr⟩
  · cases hr : q.errBuf with
    | none => exact absurd hr h
    | some e => exact ⟨_, _, Step.resolveErr s id q e hq hwait hr⟩
  · exact ⟨_, _, Step.resolveCancel s id q hq hwait h⟩
  · exact ⟨_, _, Step.resolveClose s id q hq hwait h⟩

/-- Claim C1: per call, outcome delivery is exactly-once.  Once a caller
has received an outcome no step, and hence no execution, changes it
(never two); a resolve step fires only for a still-waiting caller and
installs exactly the delivered outcome; whenever a resolving event is
present (buffered response, buffered error, fired context, or closed
`closeCh`), the caller's select can fire (never zero, given that a
response, write error, cancellation, or close eventually occurs); and
every delivered value is exactly one of the five outcome kinds. -/
theorem c1_exactly_one_outcome_per_call :
    (∀ (s t : Sys) (a : Act) (id : Int) (o : CallerOut),
        Step s a t → callerOf s id = some o → callerOf t id = some o)
    ∧ (∀ (s t : Sys) (id : Int) (o : CallerOut),
        Reaches s t → callerOf s id = some o → callerOf t id = some o)
    ∧ (∀ (s t : Sys) (id : Int) (o : CallerOut),
        Step s (Act.resolve id o) t →
        callerOf s id = none ∧ callerOf t id = some o)
    ∧ (∀ (s : Sys) (id : Int) (q : ReqSt),
        getReq s.reqs id = some q → q.caller = none →
        (q.respBuf ≠ none ∨ q.errBuf ≠ none ∨ q.cancelled = true ∨
          s.closeChClosed = true) →
        ∃ o t, Step s (Act.resolve id o) t)
    ∧ (∀ o : CallerOut,
        (∃ d, callerOutcome o = Outcome.success d)
        ∨ (∃ m, callerOutcome o = Outcome.remoteFailure m)
        ∨ callerOutcome o = Outcome.cancelled
        ∨ callerOutcome o = Outcome.closedErr
        ∨ (∃ m, callerOutcome o = Outcome.transportError m)) := by
  refine ⟨?_, ?_, ?_, ?_, ?_⟩
  · exact fun s t a id o hstep => step_caller_frozen hstep id o
  · exact fun s t id o hr => reaches_caller_frozen hr id o
  · exact fun s t id o hstep => resolve_step_waiting hstep
  · exact fun s id q hq hwait hready => resolve_progress hq hwait hready
  · intro o
    cases o with
    | gotResp r =>
        by_cases h : respSuccess r = true
        · exact Or.inl ⟨r.data, by simp [callerOutcome, h]⟩
        · refine Or.inr (Or.inl ⟨r.error, ?_⟩)
          simp only [callerOutcome]
          rw [if_neg (fun hh => h (by simp [hh]))]
    | gotErr e =>
        cases e with
        | errClosed => exact Or.inr (Or.inr (Or.inr (Or.inl rfl)))
        | transportErr m => exact Or.inr (Or.inr (Or.inr (Or.inr ⟨m, rfl⟩)))
    | sawCancel => exact Or.inr (Or.inr (Or.inl rfl))
    | sawClose => exact Or.inr (Or.inr (Or.inr (Or.inl rfl)))

/-- Claim C1, witness: in a system with one cancelled pending request,
the waiting caller has received nothing yet and its select can fire. -/
theorem c1_exactly_one_outcome_witness :
    callerOf c1sys 0 = none
    ∧ ∃ o t, Step c1sys (Act.resolve 0 o) t := by
  constructor
  · rfl
  · exact c1_exactly_one_outcome_per_call.2.2.2.1 c1sys 0 cancelledReq rfl
      rfl (Or.inr (Or.inr (Or.inl rfl)))

/-- Claim C3, counterexample: from the claim's own scenario (frame
written and entry pending, no reply buffered, context fired, close not
signalled), the reader may still buffer a reply for the cancelled call —
the send on the capacity-one `resp` channel is ready even though
`ctx.Done()` is — and the caller's select, with both the response and
the cancellation branches ready, may return the response.  The caller
then holds the reply, not the Cancelled outcome, so cancellation is not
guaranteed to win. -/
theorem c3_buffered_reply_can_beat_cancel :
    cancelledReq.cancelled = true
    ∧ cancelledReq.respBuf = none
    ∧ cancelledReq.phase = RPhase.pending
    ∧ c3sys.closeChClosed = false
    ∧ callerOf c3sys 5 = none
    ∧ ∃ t u, Step c3sys (Act.rDeliver 5 c3resp true) t
        ∧ Step t (Act.resolve 5 (CallerOut.gotResp c3resp)) u
        ∧ callerOf u 5 = some (CallerOut.gotResp c3resp)
        ∧ callerOutcome (CallerOut.gotResp c3resp) ≠ Outcome.cancelled := by
  refine ⟨rfl, rfl, rfl, rfl, rfl, ?_⟩
  refine ⟨_, _,
    Step.rDeliver c3sys 5 cancelledReq c3resp true rfl rfl rfl rfl
      (Or.inl rfl) (fun _ => rfl),
    Step.resolveResp _ 5
      { cancelledReq with respBuf := some c3resp, phase := RPhase.removed }
      c3resp rfl rfl rfl, ?_, ?_⟩
  · rfl
  · simp [callerOutcome, respSuccess, c3resp]

/-- Claim C3, amended: with the request written (entry pending), both
channels empty, the context fired, and close not signalled, the caller's
select can fire and, directly from this state, can only return the
cancellation branch, whose outcome is `Cancelled` — distinct from the
closed error and from every transport error.  If instead a reply for
this id is delivered while the caller is still waiting, the caller's
select then returns either that reply or the cancellation — both
branches are ready and Go picks among them.  A reply arriving after the
caller has resolved reaches only this request's entry, the caller keeps
its outcome, and every other request is untouched: the late reply is
never delivered to any other caller. -/
theorem c3_cancel_or_buffered_reply :
    ∀ (s : Sys) (id : Int) (q : ReqSt),
      getReq s.reqs id = some q →
      q.phase = RPhase.pending →
      q.respBuf = none →
      q.errBuf = none →
      q.cancelled = true →
      s.closeChClosed = false →
      q.caller = none →
      (∃ t, Step s (Act.resolve id CallerOut.sawCancel) t)
      ∧ (∀ (o : CallerOut) (t : Sys),
          Step s (Act.resolve id o) t → o = CallerOut.sawCancel)
      ∧ (callerOutcome CallerOut.sawCancel = Outcome.cancelled
         ∧ Outcome.cancelled ≠ Outcome.closedErr
         ∧ ∀ m, Outcome.cancelled ≠ Outcome.transportError m)
      ∧ (∀ (t u : Sys) (r : Resp) (deliver : Bool) (o : CallerOut),
          Step s (Act.rDeliver id r deliver) t →
          Step t (Act.resolve id o) u →
          o = CallerOut.gotResp r ∨ o = CallerOut.sawCancel)
      ∧ (∀ (t u : Sys) (r : Resp) (deliver : Bool),
          Step s (Act.resolve id CallerOut.sawCancel) t →
          Step t (Act.rDeliver id r deliver) u →
          callerOf u id = some CallerOut.sawCancel
          ∧ ∀ j, j ≠ id → getReq u.reqs j = getReq t.reqs j) := by
  intro s id q hq hph hrb heb hcanc hch hwait
  refine ⟨⟨_, Step.resolveCancel s id q hq hwait hcanc⟩, ?_, ?_, ?_, ?_⟩
  · intro o t hstep
    cases hstep with
    | resolveResp _ q2 r hq2 hwait2 hready2 =>
        rw [hq] at hq2
        injection hq2 with hqq
        rw [← hqq, hrb] at hready2
        exact Option.noConfusion hready2
    | resolveErr _ q2 e hq2 hwait2 hready2 =>
        rw [hq] at hq2
        injection hq2 with hqq
        rw [← hqq, heb] at hready2
        exact Option.noConfusion hready2
    | resolveCancel _ q2 hq2 hwait2 hready2 => rfl
    | resolveClose _ q2 hq2 hwait2 hready2 =>
        rw [hch] at hready2
        exact Bool.noConfusion hready2
  · exact ⟨rfl, fun hh => Outcome.noConfusion hh,
      fun m hh => Outcome.noConfusion hh⟩
  · intro t u r deliver o h1 h2
    cases h1 with
    | rDeliver _ q2 r2 deliver2 hq2 hloops2 hph2 hid2 hsel2 hbuf2 =>
        rw [hq] at hq2
        injection hq2 with hqq
        subst hqq
        cases h2 with
        | resolveResp _ q3 r3 hq3 hwait3 hready3 =>
            have hqt : getReq (setReq s.reqs id
                { q with respBuf := (if deliver then some r else q.respBuf),
                         phase := RPhase.removed }) id =
                some { q with
                  respBuf := (if deliver then some r else q.respBuf),
                  phase := RPhase.removed } := getReq_setReq_self hq _
            rw [hqt] at hq3
            injection hq3 with hq33
            have h5 : (if deliver = true then some r else q.respBuf) =
                some r3 := by
              rw [← hq33] at hready3
              exact hready3
            cases deliver with
            | true =>
                simp only [if_pos rfl] at h5
                injection h5 with h55
                rw [h55]
                exact Or.inl rfl
            | false =>
                simp only [Bool.false_eq_true, if_neg] at h5
                rw [hrb] at h5
                exact Option.noConfusion h5
        | resolveErr _ q3 e hq3 hwait3 hready3 =>
            have hqt : getReq (setReq s.reqs id
                { q with respBuf := (if deliver then some r else q.respBuf),
                         phase := RPhase.removed }) id =
                some { q with
                  respBuf := (if deliver then some r else q.respBuf),
                  phase := RPhase.removed } := getReq_setReq_self hq _
            rw [hqt] at hq3
            injection hq3 with hq33
            have h5 : q.errBuf = some e := by
              rw [← hq33] at hready3
              exact hready3
            rw [heb] at h5
            exact Option.noConfusion h5
        | resolveCancel _ q3 hq3 hwait3 hready3 => exact Or.inr rfl
        | resolveClose _ q3 hq3 hwait3 hready3 =>
            have h5 : s.closeChClosed = true := hready3
            rw [hch] at h5
            exact Bool.noConfusion h5
  · intro t u r deliver h1 h2
    have hres := resolve_step_waiting h1
    constructor
    · exact step_caller_frozen h2 id CallerOut.sawCancel hres.2
    · intro j hj
      cases h2 with
      | rDeliver _ q2 r2 deliver2 hq2 hloops hph2 hid2 hsel hbuf =>
          exact getReq_setReq_ne t.reqs id _ hj

/-- Claim C3, witness: the amended cancellation behaviour evaluated on a
concrete one-request system: the cancel branch can fire, it is the only
branch available while no reply is buffered, and its outcome is the
cancellation condition. -/
theorem c3_cancel_or_buffered_reply_witness :
    (∃ t, Step c3sys (Act.resolve 5 CallerOut.sawCancel) t)
    ∧ callerOutcome CallerOut.sawCancel = Outcome.cancelled := by
  constructor
  · exact (c3_cancel_or_buffered_reply c3sys 5 cancelledReq rfl rfl rfl
      rfl rfl rfl rfl).1
  · exact (c3_cancel_or_buffered_reply c3sys 5 cancelledReq rfl rfl rfl
      rfl rfl rfl rfl).2.2.1.1

/-- Claim C8: a response is a success exactly when its `error` field is
the string `success`; on any other `error` string, `Client.command`
returns nil data and an error carrying the player's error string; and a
response delivery touches only the entry keyed by its request id, so no
other caller can observe the failure. -/
theorem c8_remote_failure_only_to_caller :
    (∀ r : Resp, respSuccess r = true ↔ r.error = "success")
    ∧ (∀ r : Resp, r.error = "success" →
        commandResult r = (some r.data, none))
    ∧ (∀ r : Resp, r.error ≠ "success" →
        commandResult r = (none, some (GoErr.commandFailed r.error)))
    ∧ (∀ (s t : Sys) (id : Int) (r : Resp) (deliver : Bool),
        Step s (Act.rDeliver id r deliver) t →
        ∀ j, j ≠ id → getReq t.reqs j = getReq s.reqs j) := by
  refine ⟨?_, ?_, ?_, ?_⟩
  · intro r
    simp [respSuccess]
  · intro r h
    simp [commandResult, respSuccess, h]
  · intro r h
    simp [commandResult, respSuccess, h]
  · intro s t id r deliver hstep j hj
    cases hstep with
    | rDeliver _ q r2 deliver2 hq hloops hph hid2 hsel hbuf =>
        exact getReq_setReq_ne s.reqs id _ hj

/-- Claim C8, witness: a concrete failed response yields nil data and
the wrapped player error string. -/
theorem c8_remote_failure_witness :
    commandResult c8failResp =
      (none, some (GoErr.commandFailed "invalid parameter")) :=
  c8_remote_failure_only_to_caller.2.2.1 c8failResp (by decide)

/-- Claim C2, counterexample: when closing the underlying connection
fails, `close` returns the wrapped error and delivers `ErrClosed` to
none of the pending callers (here K = 1), so the claim's unconditional
all-K delivery does not hold. -/
theorem c2_failed_conn_close_delivers_nothing :
    c2onePending.pending.length = 1
    ∧ ipcClose c2onePending (some "bad file descriptor") =
        (c2onePending,
         some (GoErr.closeConnFailed "bad file descriptor"), []) :=
  ⟨rfl, rfl⟩

/-- Claim C2, amended: when `conn.Close()` succeeds, `close` returns nil,
delivers `ErrClosed` exactly once to each of the K pending entries
(their ids being distinct), marks every entry's error channel, and every
later `close` call observes `closing` and returns nil with no teardown
and no deliveries. -/
theorem c2_close_drains_once_then_noop :
    ∀ st : IpcSt,
      st.closing = false →
      st.closeChClosed = false →
      (st.pending.map Prod.fst).Nodup →
      ((ipcClose st none).2.1 = none)
      ∧ ((ipcClose st none).2.2 = st.pending.map Prod.fst)
      ∧ (∀ id, id ∈ st.pending.map Prod.fst →
          List.count id (ipcClose st none).2.2 = 1)
      ∧ (∀ p, p ∈ (ipcClose st none).1.pending →
          p.2.errBuf = some GoErr.errClosed)
      ∧ ((ipcClose st none).1.closing = true)
      ∧ (∀ r2, ipcClose (ipcClose st none).1 r2 =
          ((ipcClose st none).1, none, [])) := by
  intro st h1 h2 hnd
  have hred : ipcClose st none =
      ({ closing := true
         closeChClosed := true
         pending := st.pending.map
           (fun p => (p.1, { p.2 with errBuf := some GoErr.errClosed }))
         eventsClosed := true
         outgoingClosed := true }, none, st.pending.map Prod.fst) := by
    simp [ipcClose, h1, h2]
  refine ⟨?_, ?_, ?_, ?_, ?_, ?_⟩
  · rw [hred]
  · rw [hred]
  · intro id hid
    rw [hred]
    exact List.count_eq_one_of_mem hnd hid
  · intro p hp
    rw [hred] at hp
    obtain ⟨p0, hp0, hpeq⟩ := List.mem_map.mp hp
    rw [← hpeq]
  · rw [hred]
  · intro r2
    rw [hred]
    rfl

/-- Claim C2, witness: the amended close behaviour evaluated with two
pending calls. -/
theorem c2_close_drains_witness :
    (ipcClose c2twoPending none).2.2 = [0, 1]
    ∧ List.count 0 (ipcClose c2twoPending none).2.2 = 1
    ∧ List.count 1 (ipcClose c2twoPending none).2.2 = 1
    ∧ (∀ r2, ipcClose (ipcClose c2twoPending none).1 r2 =
        ((ipcClose c2twoPending none).1, none, [])) := by
  have h := c2_close_drains_once_then_noop c2twoPending rfl rfl (by decide)
  exact ⟨h.2.1, h.2.2.1 0 (by decide), h.2.2.1 1 (by decide), h.2.2.2.2.2⟩

/-- Claim C4, counterexample: when the call's context is already done,
the writer loop's select may take the `ctx.Done()` branch on a failed
write, so the transport error is not delivered to the entry's error
channel, contrary to the claim's unconditional delivery. -/
theorem c4_cancelled_write_error_skipped :
    writeLoopIter [] 7 true (some "broken pipe") false =
      ([], [WAct.store 7, WAct.writeAttempt 7, WAct.observeCancel 7,
            WAct.deleteEntry 7])
    ∧ WAct.deliverErr 7 "broken pipe" ∉
        (writeLoopIter [] 7 true (some "broken pipe") false).2 := by
  decide

/-- Claim C4, amended: the writer loop stores the entry before the write
begins; the write is attempted exactly once (no retry); on write failure
the entry is removed from the table and, unless the call's context has
already fired (in which case the select may skip delivery), the
transport error is delivered to the entry's error channel; on success
the entry stays in the table. -/
theorem c4_insert_before_write :
    ∀ (before : List Int) (id : Int) (cancelled : Bool)
      (writeResult : Option String) (pick : Bool),
      ((writeLoopIter before id cancelled writeResult pick).2.take 2 =
        [WAct.store id, WAct.writeAttempt id])
      ∧ (List.count (WAct.writeAttempt id)
          (writeLoopIter before id cancelled writeResult pick).2 = 1)
      ∧ (writeResult = none →
          (writeLoopIter before id cancelled writeResult pick).1 =
            id :: before)
      ∧ (∀ msg, writeResult = some msg →
          (id ∉ (writeLoopIter before id cancelled writeResult pick).1)
          ∧ (cancelled = false →
              (writeLoopIter before id cancelled writeResult pick).2 =
                [WAct.store id, WAct.writeAttempt id,
                 WAct.deliverErr id msg, WAct.deleteEntry id])
          ∧ ((writeLoopIter before id cancelled writeResult pick).2 =
                [WAct.store id, WAct.writeAttempt id,
                 WAct.deliverErr id msg, WAct.deleteEntry id]
             ∨ (writeLoopIter before id cancelled writeResult pick).2 =
                [WAct.store id, WAct.writeAttempt id,
                 WAct.observeCancel id, WAct.deleteEntry id])) := by
  intro before id cancelled writeResult pick
  cases writeResult with
  | none =>
      refine ⟨rfl, ?_, fun _ => rfl, fun msg hmsg => Option.noConfusion hmsg⟩
      simp [writeLoopIter, List.count_cons]
  | some msg0 =>
      cases cancelled with
      | false =>
          refine ⟨rfl, ?_, fun hh => Option.noConfusion hh, ?_⟩
          · simp [writeLoopIter, List.count_cons]
          · intro msg hmsg
            injection hmsg with hmm
            subst hmm
            refine ⟨?_, fun _ => rfl, Or.inl rfl⟩
            simp [writeLoopIter]
      | true =>
          cases pick with
          | false =>
              refine ⟨rfl, ?_, fun hh => Option.noConfusion hh, ?_⟩
              · simp [writeLoopIter, List.count_cons]
              · intro msg hmsg
                injection hmsg with hmm
                subst hmm
                refine ⟨?_, fun hh => Bool.noConfusion hh, Or.inr rfl⟩
                simp [writeLoopIter]
          | true =>
              refine ⟨rfl, ?_, fun hh => Option.noConfusion hh, ?_⟩
              · simp [writeLoopIter, List.count_cons]
              · intro msg hmsg
                injection hmsg with hmm
                subst hmm
                refine ⟨?_, fun hh => Bool.noConfusion hh, Or.inl rfl⟩
                simp [writeLoopIter]

/-- Claim C4, witness: a failed write with a live context delivers the
transport error and removes the entry. -/
theorem c4_insert_before_write_witness :
    (writeLoopIter [] 4 false (some "io timeout") true).2 =
      [WAct.store 4, WAct.writeAttempt 4, WAct.deliverErr 4 "io timeout",
       WAct.deleteEntry 4]
    ∧ (4 : Int) ∉ (writeLoopIter [] 4 false (some "io timeout") true).1 := by
  have h := c4_insert_before_write [] 4 false (some "io timeout") true
  exact ⟨((h.2.2.2 "io timeout" rfl).2.1 rfl), (h.2.2.2 "io timeout" rfl).1⟩

/-- Claim C7, witness: the malformed-line behaviour at concrete flag
values. -/
theorem c7_malformed_line_witness :
    readLoopIter false false false (RInput.line none) =
      RStep.cont false none :=
  (c7_malformed_line_dropped false false false).1

/-- Claim C10, witness: the bool getter on a string-typed value returns
the zero value and the type error. -/
theorem c10_typed_getters_witness :
    getPropertyBool (GoVal.vstr "yes") none =
      (false, some (GoErr.notBool (GoVal.vstr "yes"))) := by
  rcases c10_typed_getters_safe.1 (GoVal.vstr "yes") with ⟨b, hb, hres⟩ | ⟨hres, hne⟩
  · exact absurd hb (fun hh => GoVal.noConfusion hh)
  · exact hres

end Mpv
